import Mathlib

/-!
Shallow embedding of `src/mcp_servers/hangman_mcp.py`: the hangman game
state machine (`GameState` and its methods) and the five session-registry
operations (`_start_hangman_game`, `_make_guess`, `_get_game_status`,
`_list_active_sessions`, `_end_game`).

Modelling choices:
* Python strings holding words are `List Char`; user-facing strings are `String`.
* Python `set[str]` of single letters is `Finset Char`.
* The global dict `game_sessions` is threaded explicitly as an association
  list `Registry`; every operation takes and returns it.
* `get_secret_word()` draws a random word and may raise; `_start_hangman_game`
  is therefore parameterised by the outcome of that call
  (`Except String (List Char)`).
* The fallible list indexing `get_hangman_images()[i]` is `List.get? i`,
  so a result's `hangman_image` field is `Option String`.
-/

/-- namedtuple PuzzleLetter = ('character', 'guessed'). -/
structure PuzzleLetter where
  character : Char
  guessed : Bool
deriving DecidableEq, Repr

/-- Puzzle = list[PuzzleLetter]. -/
abbrev Puzzle := List PuzzleLetter

/-- The tuple of ten hangman ASCII drawings returned by `get_hangman_images()`. -/
def get_hangman_images : List String :=
  [ "\n\n\n    \n    \n    \n=====",
    "\n    +\n    |\n    |\n    |\n    |\n    |\n=====",
    "\n +--+\n    |\n    |\n    |\n    |\n    |\n=====",
    "\n +--+\n |  |\n    |\n    |\n    |\n    |\n=====",
    "\n +--+\n |  |\n O  |\n    |\n    |\n    |\n=====",
    "\n +--+\n |  |\n O  |\n |  |\n    |\n    |\n=====",
    "\n +--+\n |  |\n O  |\n/|  |\n    |\n    |\n=====",
    "\n +--+\n |  |\n O  |\n/|\\ |\n    |\n    |\n=====",
    "\n +--+\n |  |\n O  |\n/|\\ |\n/   |\n    |\n=====",
    "\n +--+\n |  |\n O  |\n/|\\ |\n/ \\ |\n    |\n=====" ]

/-- The dataclass `GameState`. `current_guess` starts as the empty string,
written `none`; once set it is always a single letter. -/
structure GameState where
  player_name : String := ""
  word : List Char := []
  current_guess : Option Char := none
  guesses : Finset Char := ∅
  remaining_letters : Finset Char := ∅
  puzzle : Puzzle := []
  image_idx : Nat := 0
  is_active : Bool := false
deriving DecidableEq

/-- Method `initialize_game_state`: post-instantiation initialization. -/
def GameState.initialize_game_state (s : GameState) : GameState :=
  { s with remaining_letters := s.word.toFinset,
           puzzle := s.word.map (fun char => PuzzleLetter.mk char false),
           is_active := true }

/-- Method `update_puzzle`: reveal positions equal to the current guess. -/
def GameState.update_puzzle (s : GameState) : GameState :=
  { s with puzzle := s.puzzle.map (fun pl =>
      PuzzleLetter.mk pl.character
        (pl.guessed || decide (some pl.character = s.current_guess))) }

/-- Method `update_state_on_guess`: remove the current guess from
`remaining_letters` and update the puzzle; on `KeyError` (guess not in the
set) increment `image_idx` instead. -/
def GameState.update_state_on_guess (s : GameState) : GameState :=
  match s.current_guess with
  | some c =>
      if c ∈ s.remaining_letters then
        ({ s with remaining_letters := s.remaining_letters.erase c }).update_puzzle
      else
        { s with image_idx := s.image_idx + 1 }
  | none => { s with image_idx := s.image_idx + 1 }

/-- Method `is_game_won`: `len(remaining_letters) == 0`. -/
def GameState.is_game_won (s : GameState) : Bool :=
  s.remaining_letters.card == 0

/-- Method `is_game_lost`: `image_idx >= len(get_hangman_images()) - 1`. -/
def GameState.is_game_lost (s : GameState) : Bool :=
  decide (get_hangman_images.length - 1 ≤ s.image_idx)

/-- Method `is_game_over`: won or lost. -/
def GameState.is_game_over (s : GameState) : Bool :=
  s.is_game_won || s.is_game_lost

/-- Helper for `' '.join(...)`: concatenate with single spaces between items. -/
def joinWithSpaces : List String → String
  | [] => ""
  | [x] => x
  | x :: xs => x ++ " " ++ joinWithSpaces xs

/-- Method `get_display_word`: the word with guessed letters revealed,
`' '.join([char if val else '_' for char, val in self.puzzle])`. -/
def GameState.get_display_word (s : GameState) : String :=
  joinWithSpaces (s.puzzle.map
    (fun pl => if pl.guessed then String.mk [pl.character] else "_"))

/-- Method `reset_game`: reset the game state for a new game
(`player_name` is kept). -/
def GameState.reset_game (s : GameState) : GameState :=
  { s with word := [], current_guess := none, guesses := ∅,
           remaining_letters := ∅, puzzle := [], image_idx := 0,
           is_active := false }

/-- The global dict `game_sessions: Dict[str, GameState]`, threaded
explicitly. Keys are unique in every registry built by the operations. -/
abbrev Registry := List (String × GameState)

/-- Dict lookup `game_sessions[sid]` / `sid in game_sessions`. -/
def Registry.find? (r : Registry) (sid : String) : Option GameState :=
  r.lookup sid

/-- Dict assignment `game_sessions[sid] = gs`: replace the entry in place
when the key is present (keys are unique), append otherwise. -/
def Registry.set : Registry → String → GameState → Registry
  | [], sid, gs => [(sid, gs)]
  | p :: ps, sid, gs =>
      if p.1 = sid then (sid, gs) :: ps else p :: Registry.set ps sid gs

/-- Dict deletion `del game_sessions[sid]`. -/
def Registry.remove (r : Registry) (sid : String) : Registry :=
  r.filter (fun p => p.1 ≠ sid)

/-- Result dict of `_start_hangman_game`. -/
inductive StartResult where
  | error (message : String)
  | success (message : String) (word_length : Nat) (display_word : String)
      (hangman_image : Option String) (guesses_remaining : Int)
      (session_id : String)
deriving DecidableEq

/-- Result dict of `_make_guess`. In the success case `game_over`, `won` and
`message` are the fields added after the base response; `won` is absent
(`none`) when the game is not over. -/
inductive GuessResult where
  | error (message : String)
  | success (letter : String) (correct : Bool) (display_word : String)
      (hangman_image : Option String) (guesses_made : List Char)
      (guesses_remaining : Int) (game_over : Bool) (won : Option Bool)
      (message : String)
deriving DecidableEq

/-- Result dict of `_get_game_status`: the three shapes it can take. -/
inductive StatusResult where
  | no_game (message : String)
  | no_active_game (message : String)
  | snapshot (status : String) (player_name : String) (word_length : Nat)
      (display_word : String) (hangman_image : Option String)
      (guesses_made : List Char) (guesses_remaining : Int) (game_over : Bool)
      (won : Option Bool) (session_id : String)
deriving DecidableEq

/-- The `status` field of a `_get_game_status` result. -/
def StatusResult.statusField : StatusResult → String
  | .no_game _ => "no_game"
  | .no_active_game _ => "no_active_game"
  | .snapshot st _ _ _ _ _ _ _ _ _ => st

/-- The `won` field of a `_get_game_status` result (absent on the two
short shapes). -/
def StatusResult.wonField : StatusResult → Option Bool
  | .no_game _ => none
  | .no_active_game _ => none
  | .snapshot _ _ _ _ _ _ _ _ won _ => won

/-- One entry of `_list_active_sessions`'s `sessions` list. -/
structure SessionInfo where
  session_id : String
  player_name : String
  active : Bool
  word_length : Nat
  guesses_made : Nat
  game_over : Bool
deriving DecidableEq

/-- Result dict of `_list_active_sessions`. -/
structure ListResult where
  sessions : List SessionInfo
  total_sessions : Nat
deriving DecidableEq

/-- Result dict of `_end_game`. -/
inductive EndResult where
  | error (message : String)
  | success (message : String)
deriving DecidableEq

/-- Sorted list of guessed letters, `sorted(list(game_state.guesses))`. -/
def GameState.sorted_guesses (s : GameState) : List Char :=
  s.guesses.sort (· ≤ ·)

/-- The state mutation block of `_make_guess` once the guess `c` has been
validated: record it as the current guess, add it to `guesses`, and run
`update_state_on_guess`. -/
def GameState.apply_guess (s : GameState) (c : Char) : GameState :=
  ({ s with current_guess := some c,
            guesses := insert c s.guesses }).update_state_on_guess

/-- The game-over epilogue of `_make_guess`: deactivate the game when it has
been won, otherwise when it has been lost (win is checked first). -/
def GameState.finish_if_over (s : GameState) : GameState :=
  if s.is_game_won then { s with is_active := false }
  else if s.is_game_lost then { s with is_active := false }
  else s

/-- `_start_hangman_game(player_name, session_id)`. The `secret` argument is
the outcome of the `get_secret_word()` call: `.ok w` when it returns word
`w`, `.error e` when it raises an exception with message `e` (caught by the
surrounding `try`, which turns it into an error result; the session entry
reset so far stays in the registry). -/
def _start_hangman_game (r : Registry) (player_name : String)
    (session_id : String) (secret : Except String (List Char)) :
    Registry × StartResult :=
  let r0 : Registry :=
    match r.find? session_id with
    | none => r.set session_id {}
    | some _ => r
  let gs : GameState := (r0.find? session_id).getD {}
  let gs1 : GameState := { gs.reset_game with player_name := player_name }
  match secret with
  | .error e =>
      (r0.set session_id gs1,
       .error ("Failed to start game: " ++ e))
  | .ok w =>
      let gs2 : GameState := ({ gs1 with word := w }).initialize_game_state
      (r0.set session_id gs2,
       .success ("New game started for " ++ player_name ++ "!")
         gs2.word.length gs2.get_display_word (get_hangman_images.get? 0)
         ((get_hangman_images.length : Int) - 1) session_id)

/-- The input normalization `letter.upper().strip()` of `_make_guess`,
written at the character-list level: uppercase every character, then drop
whitespace from both ends. -/
def normalize_guess (letter : String) : List Char :=
  (((letter.data.map Char.toUpper).dropWhile Char.isWhitespace).reverse.dropWhile
    Char.isWhitespace).reverse

/-- `_make_guess(letter, session_id)`. -/
def _make_guess (r : Registry) (letter : String) (session_id : String) :
    Registry × GuessResult :=
  match r.find? session_id with
  | none => (r, .error "No active game found. Start a new game first.")
  | some game_state =>
    if game_state.is_active = false then
      (r, .error "No active game. Start a new game first.")
    else if game_state.is_game_over then
      (r, .error "Game is already over. Start a new game.")
    else
      let l : List Char := normalize_guess letter
      match l with
      | [c] =>
        if c.isAlpha = false then
          (r, .error "Please provide exactly one letter.")
        else if c ∈ game_state.guesses then
          (r, .error ("You've already guessed '" ++ String.mk l ++
            "'. Try a different letter."))
        else
          let is_correct : Bool := decide (c ∈ game_state.word)
          let gs2 : GameState := game_state.apply_guess c
          let final : GameState := gs2.finish_if_over
          let msg : String :=
            if gs2.is_game_won then
              "Congratulations " ++ gs2.player_name ++ "! You won! The word was '"
                ++ String.mk gs2.word ++ "'."
            else if gs2.is_game_lost then
              "Game over " ++ gs2.player_name ++ "! The word was '"
                ++ String.mk gs2.word ++ "'. Better luck next time!"
            else if is_correct then
              "Good guess! '" ++ String.mk l ++ "' is in the word."
            else
              "Sorry, '" ++ String.mk l ++ "' is not in the word."
          (r.set session_id final,
           .success (String.mk l) is_correct gs2.get_display_word
             (get_hangman_images.get? gs2.image_idx) gs2.sorted_guesses
             ((get_hangman_images.length : Int) - 1 - (gs2.image_idx : Int))
             gs2.is_game_over
             (if gs2.is_game_over then some gs2.is_game_won else none)
             msg)
      | _ => (r, .error "Please provide exactly one letter.")

/-- `_get_game_status(session_id)`: read-only, the registry is returned
unchanged. -/
def _get_game_status (r : Registry) (session_id : String) :
    Registry × StatusResult :=
  match r.find? session_id with
  | none => (r, .no_game "No game session found. Start a new game first.")
  | some game_state =>
    if game_state.is_active = false ∧ game_state.is_game_over = false then
      (r, .no_active_game "No active game. Start a new game first.")
    else
      (r, .snapshot (if game_state.is_active then "active" else "finished")
        game_state.player_name game_state.word.length
        game_state.get_display_word
        (get_hangman_images.get? game_state.image_idx)
        game_state.sorted_guesses
        ((get_hangman_images.length : Int) - 1 - (game_state.image_idx : Int))
        game_state.is_game_over
        (if game_state.is_game_over then some game_state.is_game_won else none)
        session_id)

/-- `_list_active_sessions()`: read-only, the registry is returned
unchanged. -/
def _list_active_sessions (r : Registry) : Registry × ListResult :=
  let sessions := r.map (fun p =>
    SessionInfo.mk p.1 p.2.player_name p.2.is_active
      (if p.2.word ≠ [] then p.2.word.length else 0)
      p.2.guesses.card p.2.is_game_over)
  (r, ListResult.mk sessions sessions.length)

/-- `_end_game(session_id)`. -/
def _end_game (r : Registry) (session_id : String) : Registry × EndResult :=
  match r.find? session_id with
  | none => (r, .error "No game session found.")
  | some game_state =>
      (r.remove session_id,
       .success ("Game ended for " ++ game_state.player_name ++
         ". The word was '" ++ String.mk game_state.word ++
         "'. Thanks for playing!"))

/-- `_make_guess` on a session whose state is inactive: the NoActiveGame
error, before any other check. -/
theorem make_guess_inactive {r : Registry} {letter sid : String}
    {gs : GameState} (hf : r.find? sid = some gs) (h : gs.is_active = false) :
    _make_guess r letter sid =
      (r, .error "No active game. Start a new game first.") := by
  unfold _make_guess
  rw [hf]
  simp only [h, if_true]

/-! ### Reachability invariant

`GameState.Inv` collects the facts true of every game state the operations
can produce: `remaining_letters` is the set of word letters not yet guessed,
the puzzle is the word decorated with reveal flags that track membership in
`guesses`, at most 9 misses have been recorded, and an active game is never
already over. -/

/-- Invariant of reachable game states. -/
def GameState.Inv (s : GameState) : Prop :=
  s.remaining_letters = s.word.toFinset \ s.guesses ∧
  s.puzzle.map PuzzleLetter.character = s.word ∧
  (∀ pl ∈ s.puzzle, pl.guessed = true ↔ pl.character ∈ s.guesses) ∧
  s.image_idx ≤ 9 ∧
  (s.is_active = true → s.is_game_over = false)

instance (s : GameState) : Decidable s.Inv := by
  unfold GameState.Inv; infer_instance

/-- Invariant of reachable registries: every stored state satisfies `Inv`. -/
def RegInv (r : Registry) : Prop := ∀ p ∈ r, GameState.Inv p.2

instance (r : Registry) : Decidable (RegInv r) := by
  unfold RegInv
  exact List.decidableBAll _ r

/-- Looking up the key just set yields the state just stored. -/
theorem Registry.find?_set (r : Registry) (sid : String) (gs : GameState) :
    (r.set sid gs).find? sid = some gs := by
  induction r with
  | nil => simp [Registry.set, Registry.find?, List.lookup]
  | cons p ps ih =>
      by_cases h : p.1 = sid
      · simp [Registry.set, h, Registry.find?, List.lookup]
      · simpa [Registry.set, h, Registry.find?, List.lookup,
          show (sid == p.1) = false by simpa using fun e => h e.symm] using ih

/-- Every entry of `r.set sid gs` is the new entry or an old one. -/
theorem Registry.mem_set {r : Registry} {sid : String} {gs : GameState}
    {q : String × GameState} (hq : q ∈ r.set sid gs) : q = (sid, gs) ∨ q ∈ r := by
  induction r with
  | nil => simpa [Registry.set] using hq
  | cons p ps ih =>
      by_cases h : p.1 = sid
      · simp only [Registry.set, if_pos h, List.mem_cons] at hq
        rcases hq with hq | hq
        · exact Or.inl hq
        · exact Or.inr (List.mem_cons_of_mem p hq)
      · simp only [Registry.set, if_neg h, List.mem_cons] at hq
        rcases hq with hq | hq
        · exact Or.inr (hq ▸ List.mem_cons_self p ps)
        · rcases ih hq with hq | hq
          · exact Or.inl hq
          · exact Or.inr (List.mem_cons_of_mem p hq)

/-- A successful lookup comes from an entry of the registry. -/
theorem Registry.find?_mem {r : Registry} {sid : String} {gs : GameState}
    (h : r.find? sid = some gs) : (sid, gs) ∈ r := by
  induction r with
  | nil => simp [Registry.find?, List.lookup] at h
  | cons p ps ih =>
      obtain ⟨k, v⟩ := p
      by_cases hb : k = sid
      · subst hb
        simp only [Registry.find?, List.lookup, beq_self_eq_true] at h
        cases h
        exact List.mem_cons_self _ ps
      · simp only [Registry.find?, List.lookup,
          show (sid == k) = false by simpa using fun e => hb e.symm] at h
        exact List.mem_cons_of_mem _ (ih h)

/-- After `remove sid` the key `sid` is gone. -/
theorem Registry.find?_remove (r : Registry) (sid : String) :
    (r.remove sid).find? sid = none := by
  induction r with
  | nil => rfl
  | cons p ps ih =>
      by_cases h : p.1 = sid
      · simpa [Registry.remove, h] using ih
      · simpa [Registry.remove, h, Registry.find?, List.lookup,
          show (sid == p.1) = false by simpa using fun e => h e.symm] using ih

/-- Entries surviving `remove` were present before. -/
theorem Registry.mem_remove {r : Registry} {sid : String}
    {q : String × GameState} (hq : q ∈ r.remove sid) : q ∈ r :=
  (List.mem_filter.1 hq).1

/-- `RegInv` is preserved by storing an invariant-satisfying state. -/
theorem RegInv_set {r : Registry} (h : RegInv r) {gs : GameState}
    (hgs : gs.Inv) (sid : String) : RegInv (r.set sid gs) := by
  intro q hq
  rcases Registry.mem_set hq with hq | hq
  · simpa [hq] using hgs
  · exact h q hq

/-- `RegInv` is preserved by removal. -/
theorem RegInv_remove {r : Registry} (h : RegInv r) (sid : String) :
    RegInv (r.remove sid) := fun q hq => h q (Registry.mem_remove hq)

/-- A looked-up state of an invariant registry satisfies the invariant. -/
theorem RegInv_find? {r : Registry} (h : RegInv r) {sid : String}
    {gs : GameState} (hf : r.find? sid = some gs) : gs.Inv :=
  h (sid, gs) (Registry.find?_mem hf)

/-! ### GameState lemmas -/

theorem get_hangman_images_length : get_hangman_images.length = 10 := rfl

/-- The game-over epilogue only touches `is_active`. -/
theorem GameState.finish_if_over_fields (s : GameState) :
    s.finish_if_over.word = s.word ∧ s.finish_if_over.puzzle = s.puzzle ∧
    s.finish_if_over.image_idx = s.image_idx ∧
    s.finish_if_over.guesses = s.guesses ∧
    s.finish_if_over.remaining_letters = s.remaining_letters := by
  unfold GameState.finish_if_over
  split
  · exact ⟨rfl, rfl, rfl, rfl, rfl⟩
  · split
    · exact ⟨rfl, rfl, rfl, rfl, rfl⟩
    · exact ⟨rfl, rfl, rfl, rfl, rfl⟩

theorem GameState.finish_if_over_won (s : GameState) :
    s.finish_if_over.is_game_won = s.is_game_won := by
  unfold GameState.is_game_won
  rw [(GameState.finish_if_over_fields s).2.2.2.2]

theorem GameState.finish_if_over_lost (s : GameState) :
    s.finish_if_over.is_game_lost = s.is_game_lost := by
  unfold GameState.is_game_lost
  rw [(GameState.finish_if_over_fields s).2.2.1]

theorem GameState.finish_if_over_over (s : GameState) :
    s.finish_if_over.is_game_over = s.is_game_over := by
  unfold GameState.is_game_over
  rw [GameState.finish_if_over_won, GameState.finish_if_over_lost]

/-- In the epilogue, a game that is over gets deactivated. -/
theorem GameState.finish_if_over_active (s : GameState) :
    s.finish_if_over.is_active = if s.is_game_over then false else s.is_active := by
  unfold GameState.finish_if_over GameState.is_game_over
  by_cases hw : s.is_game_won
  · simp [hw]
  · by_cases hl : s.is_game_lost
    · simp [hw, hl]
    · simp [hw, hl]

/-- `apply_guess` on a letter still in `remaining_letters`: remove it and
reveal its positions; no miss is recorded. -/
theorem GameState.apply_guess_of_mem {s : GameState} {c : Char}
    (h : c ∈ s.remaining_letters) :
    s.apply_guess c =
      { s with current_guess := some c,
               guesses := insert c s.guesses,
               remaining_letters := s.remaining_letters.erase c,
               puzzle := s.puzzle.map (fun pl =>
                 PuzzleLetter.mk pl.character
                   (pl.guessed || decide (pl.character = c))) } := by
  unfold GameState.apply_guess GameState.update_state_on_guess
    GameState.update_puzzle
  simp [h]

/-- `apply_guess` on a letter not in `remaining_letters`: record a miss. -/
theorem GameState.apply_guess_of_not_mem {s : GameState} {c : Char}
    (h : c ∉ s.remaining_letters) :
    s.apply_guess c =
      { s with current_guess := some c,
               guesses := insert c s.guesses,
               image_idx := s.image_idx + 1 } := by
  unfold GameState.apply_guess GameState.update_state_on_guess
  simp [h]

/-- Unfolding of `is_game_lost` as an arithmetic fact. -/
theorem GameState.is_game_lost_iff (s : GameState) :
    s.is_game_lost = true ↔ 9 ≤ s.image_idx := by
  unfold GameState.is_game_lost
  simp [get_hangman_images_length]

/-- Unfolding of `is_game_won` as emptiness of `remaining_letters`. -/
theorem GameState.is_game_won_iff (s : GameState) :
    s.is_game_won = true ↔ s.remaining_letters = ∅ := by
  unfold GameState.is_game_won
  simp [Finset.card_eq_zero]

/-- An active invariant state has fewer than 9 misses. -/
theorem GameState.Inv.miss_lt_of_active {s : GameState} (hInv : s.Inv)
    (hact : s.is_active = true) : s.image_idx ≤ 8 := by
  have hover : s.is_game_over = false := hInv.2.2.2.2 hact
  have hlost : s.is_game_lost = false := by
    unfold GameState.is_game_over at hover
    exact (Bool.or_eq_false_iff.1 hover).2
  have : ¬ (9 ≤ s.image_idx) := by
    intro h9
    rw [(GameState.is_game_lost_iff s).2 h9] at hlost
    cases hlost
  omega

/-- The freshly constructed (or reset, or reset-and-renamed) state satisfies
the invariant. -/
theorem GameState.Inv_of_idle {s : GameState} (hw : s.word = [])
    (hrem : s.remaining_letters = ∅)
    (hp : s.puzzle = []) (hi : s.image_idx ≤ 9) (ha : s.is_active = false) :
    s.Inv := by
  refine ⟨?_, ?_, ?_, hi, ?_⟩
  · simp [hw, hrem]
  · simp [hw, hp]
  · simp [hp]
  · intro h; rw [ha] at h; cases h

/-- The state produced by `initialize_game_state` on a reset state with a
nonempty word satisfies the invariant. -/
theorem GameState.Inv_initialize {s : GameState} (hg : s.guesses = ∅)
    (hi : s.image_idx = 0) (hw : s.word ≠ []) : s.initialize_game_state.Inv := by
  unfold GameState.initialize_game_state
  refine ⟨?_, ?_, ?_, ?_, ?_⟩
  · simp [hg]
  · have : (PuzzleLetter.character ∘ fun char => PuzzleLetter.mk char false) =
        fun char => char := rfl
    simp [List.map_map, this]
  · intro pl hpl
    rcases List.mem_map.1 hpl with ⟨ch, _, rfl⟩
    simp [hg]
  · simp [hi]
  · intro _
    have hwon : GameState.is_game_won
        { s with remaining_letters := s.word.toFinset,
                 puzzle := s.word.map (fun char => PuzzleLetter.mk char false),
                 is_active := true } = false := by
      unfold GameState.is_game_won
      simp [Finset.card_eq_zero, hw]
    have hlost : GameState.is_game_lost
        { s with remaining_letters := s.word.toFinset,
                 puzzle := s.word.map (fun char => PuzzleLetter.mk char false),
                 is_active := true } = false := by
      unfold GameState.is_game_lost
      simp [get_hangman_images_length, hi]
    unfold GameState.is_game_over
    simp [hwon, hlost]

/-- The heart of the preservation argument: one validated fresh guess keeps
all structural invariant clauses, and the epilogue restores the
activity clause. -/
theorem GameState.Inv_guess_step {s : GameState} {c : Char} (hInv : s.Inv)
    (hact : s.is_active = true) (hnew : c ∉ s.guesses) :
    ((s.apply_guess c).finish_if_over).Inv := by
  obtain ⟨hrem, hchar, hmask, himg, hao⟩ := hInv
  have hm8 : s.image_idx ≤ 8 :=
    GameState.Inv.miss_lt_of_active ⟨hrem, hchar, hmask, himg, hao⟩ hact
  have key : (s.apply_guess c).remaining_letters =
        (s.apply_guess c).word.toFinset \ (s.apply_guess c).guesses ∧
      (s.apply_guess c).puzzle.map PuzzleLetter.character = (s.apply_guess c).word ∧
      (∀ pl ∈ (s.apply_guess c).puzzle,
        pl.guessed = true ↔ pl.character ∈ (s.apply_guess c).guesses) ∧
      (s.apply_guess c).image_idx ≤ 9 := by
    by_cases hc : c ∈ s.remaining_letters
    · rw [GameState.apply_guess_of_mem hc]
      have hcw : c ∈ s.word.toFinset := by
        rw [hrem] at hc; exact (Finset.mem_sdiff.1 hc).1
      refine ⟨?_, ?_, ?_, himg⟩
      · rw [hrem]
        ext x
        simp only [Finset.mem_erase, Finset.mem_sdiff, Finset.mem_insert]
        tauto
      · have : (PuzzleLetter.character ∘ fun pl =>
            PuzzleLetter.mk pl.character (pl.guessed || decide (pl.character = c))) =
            PuzzleLetter.character := rfl
        simp only [List.map_map, this]
        exact hchar
      · intro pl hpl
        rcases List.mem_map.1 hpl with ⟨q, hq, rfl⟩
        have := hmask q hq
        simp only [Bool.or_eq_true, decide_eq_true_eq, Finset.mem_insert]
        tauto
    · rw [GameState.apply_guess_of_not_mem hc]
      have hcw : c ∉ s.word.toFinset := by
        intro hmem
        exact hc (hrem ▸ Finset.mem_sdiff.2 ⟨hmem, hnew⟩)
      refine ⟨?_, hchar, ?_, by show s.image_idx + 1 ≤ 9; omega⟩
      · rw [hrem]
        ext x
        by_cases hx : x = c
        · subst hx
          simp [Finset.mem_sdiff, Finset.mem_insert, hcw]
        · simp [Finset.mem_sdiff, Finset.mem_insert, hx]
      · intro pl hpl
        have hchq := hmask pl hpl
        have hplw : pl.character ∈ s.word.toFinset := by
          rw [List.mem_toFinset, ← hchar]
          exact List.mem_map_of_mem PuzzleLetter.character hpl
        simp only [Finset.mem_insert]
        constructor
        · intro h
          exact Or.inr (hchq.1 h)
        · rintro (rfl | h)
          · exact absurd hplw hcw
          · exact hchq.2 h
  obtain ⟨k1, k2, k3, k4⟩ := key
  have ff := GameState.finish_if_over_fields (s.apply_guess c)
  refine ⟨?_, ?_, ?_, ?_, ?_⟩
  · rw [ff.2.2.2.2, ff.1, ff.2.2.2.1]; exact k1
  · rw [ff.2.1, ff.1]; exact k2
  · rw [ff.2.1, ff.2.2.2.1]; exact k3
  · rw [ff.2.2.1]; exact k4
  · intro hactf
    rw [GameState.finish_if_over_over]
    rw [GameState.finish_if_over_active] at hactf
    by_cases hover : (s.apply_guess c).is_game_over = true
    · rw [if_pos hover] at hactf; cases hactf
    · simpa using hover

/-- Unfolding `_make_guess` along its success path: a session is found, the
game is active and not over, the normalized letter is a single alphabetic
character not yet guessed. -/
theorem make_guess_success {r : Registry} {letter sid : String} {gs : GameState}
    {c : Char} (hfind : r.find? sid = some gs) (hact : gs.is_active = true)
    (hover : gs.is_game_over = false)
    (hnorm : normalize_guess letter = [c]) (halpha : c.isAlpha = true)
    (hnew : c ∉ gs.guesses) :
    _make_guess r letter sid =
      (r.set sid ((gs.apply_guess c).finish_if_over),
       GuessResult.success (String.mk [c]) (decide (c ∈ gs.word))
         (gs.apply_guess c).get_display_word
         (get_hangman_images.get? (gs.apply_guess c).image_idx)
         (gs.apply_guess c).sorted_guesses
         ((get_hangman_images.length : Int) - 1 - ((gs.apply_guess c).image_idx : Int))
         (gs.apply_guess c).is_game_over
         (if (gs.apply_guess c).is_game_over = true then
            some (gs.apply_guess c).is_game_won
          else none)
         (if (gs.apply_guess c).is_game_won = true then
            "Congratulations " ++ (gs.apply_guess c).player_name ++
              "! You won! The word was '" ++ String.mk (gs.apply_guess c).word ++ "'."
          else if (gs.apply_guess c).is_game_lost = true then
            "Game over " ++ (gs.apply_guess c).player_name ++
              "! The word was '" ++ String.mk (gs.apply_guess c).word ++
              "'. Better luck next time!"
          else if decide (c ∈ gs.word) = true then
            "Good guess! '" ++ String.mk [c] ++ "' is in the word."
          else
            "Sorry, '" ++ String.mk [c] ++ "' is not in the word.")) := by
  unfold _make_guess
  rw [hfind]
  simp only [hact, hover]
  rw [hnorm]
  simp only [halpha, hnew, if_neg, if_false, Bool.true_eq_false, Bool.false_eq_true,
    if_neg (fun h : c ∈ gs.guesses => hnew h)]

/-- The `hangman_image` field of a guess result, when present. -/
def GuessResult.imageField : GuessResult → Option (Option String)
  | .error _ => none
  | .success _ _ _ img _ _ _ _ _ => some img

/-- The `hangman_image` field of a status result, when present. -/
def StatusResult.imageField : StatusResult → Option (Option String)
  | .no_game _ => none
  | .no_active_game _ => none
  | .snapshot _ _ _ _ img _ _ _ _ _ => some img

/-- Case analysis of `_make_guess`: either it returns an error and leaves
the registry untouched, or all validations passed and it stores the
post-guess state. -/
theorem make_guess_spec (r : Registry) (letter sid : String) :
    ((_make_guess r letter sid).1 = r ∧
      ∃ m, (_make_guess r letter sid).2 = .error m) ∨
    (∃ gs c, r.find? sid = some gs ∧ gs.is_active = true ∧
      gs.is_game_over = false ∧ normalize_guess letter = [c] ∧
      c.isAlpha = true ∧ c ∉ gs.guesses ∧
      (_make_guess r letter sid).1 = r.set sid ((gs.apply_guess c).finish_if_over) ∧
      (_make_guess r letter sid).2.imageField =
        some (get_hangman_images.get? (gs.apply_guess c).image_idx)) := by
  rcases hfind : r.find? sid with _ | gs
  case none =>
    have h : _make_guess r letter sid =
        (r, .error "No active game found. Start a new game first.") := by
      unfold _make_guess
      rw [hfind]
    rw [h]
    exact Or.inl ⟨rfl, _, rfl⟩
  case some =>
    by_cases hact : gs.is_active = true
    · by_cases hover : gs.is_game_over = true
      · have h : _make_guess r letter sid =
            (r, .error "Game is already over. Start a new game.") := by
          unfold _make_guess
          rw [hfind]
          simp only [hact, hover, Bool.true_eq_false, if_false, if_true]
        rw [h]
        exact Or.inl ⟨rfl, _, rfl⟩
      · have hover' : gs.is_game_over = false := by simpa using hover
        rcases hl : normalize_guess letter with _ | ⟨c, _ | ⟨c2, t⟩⟩
        · have h : _make_guess r letter sid =
              (r, .error "Please provide exactly one letter.") := by
            unfold _make_guess
            rw [hfind]
            simp only [hact, hover', Bool.true_eq_false, Bool.false_eq_true,
              if_false]
            rw [hl]
          rw [h]
          exact Or.inl ⟨rfl, _, rfl⟩
        · by_cases halpha : c.isAlpha = true
          · by_cases hnew : c ∈ gs.guesses
            · have h : _make_guess r letter sid =
                  (r, .error ("You\'ve already guessed \'" ++ String.mk (normalize_guess letter) ++
                    "\'. Try a different letter.")) := by
                unfold _make_guess
                rw [hfind]
                simp only [hact, hover', Bool.true_eq_false, Bool.false_eq_true,
                  if_false]
                rw [hl]
                simp only [halpha, Bool.true_eq_false, if_false, if_pos hnew]
              rw [h]
              exact Or.inl ⟨rfl, _, rfl⟩
            · refine Or.inr ⟨gs, c, rfl, hact, hover', rfl, halpha, hnew, ?_, ?_⟩
              · rw [make_guess_success hfind hact hover' hl halpha hnew]
              · rw [make_guess_success hfind hact hover' hl halpha hnew]
                rfl
          · have halpha' : c.isAlpha = false := by simpa using halpha
            have h : _make_guess r letter sid =
                (r, .error "Please provide exactly one letter.") := by
              unfold _make_guess
              rw [hfind]
              simp only [hact, hover', Bool.true_eq_false, Bool.false_eq_true,
                if_false]
              rw [hl]
              simp only [halpha', if_true]
            rw [h]
            exact Or.inl ⟨rfl, _, rfl⟩
        · have h : _make_guess r letter sid =
              (r, .error "Please provide exactly one letter.") := by
            unfold _make_guess
            rw [hfind]
            simp only [hact, hover', Bool.true_eq_false, Bool.false_eq_true,
              if_false]
            rw [hl]
          rw [h]
          exact Or.inl ⟨rfl, _, rfl⟩
    · have hact2 : gs.is_active = false := by simpa using hact
      have h : _make_guess r letter sid =
          (r, .error "No active game. Start a new game first.") := by
        unfold _make_guess
        rw [hfind]
        simp only [hact2, if_true]
      rw [h]
      exact Or.inl ⟨rfl, _, rfl⟩

/-- Unfolding of `_start_hangman_game`: the looked-up (or fresh) state is
reset and renamed; on word-source failure the reset state is stored and an
error is returned, otherwise the initialized state is stored. -/
theorem start_eq (r : Registry) (p sid : String)
    (secret : Except String (List Char)) :
    _start_hangman_game r p sid secret =
      (let r0 : Registry := match r.find? sid with
          | none => r.set sid {}
          | some _ => r
       let gs1 : GameState :=
          { ((r.find? sid).getD {}).reset_game with player_name := p }
       match secret with
       | .error e => (r0.set sid gs1, .error ("Failed to start game: " ++ e))
       | .ok w =>
          (r0.set sid (({ gs1 with word := w }).initialize_game_state),
           .success ("New game started for " ++ p ++ "!")
             (({ gs1 with word := w }).initialize_game_state).word.length
             (({ gs1 with word := w }).initialize_game_state).get_display_word
             (get_hangman_images.get? 0) ((get_hangman_images.length : Int) - 1)
             sid)) := by
  rcases hf : r.find? sid with _ | gs0
  · unfold _start_hangman_game
    simp only [hf, Registry.find?_set, Option.getD_some, Option.getD_none]
  · unfold _start_hangman_game
    simp only [hf, Option.getD_some]

/-- `_get_game_status` on an unknown session id. -/
theorem get_game_status_none {r : Registry} {sid : String}
    (hf : r.find? sid = none) :
    _get_game_status r sid =
      (r, .no_game "No game session found. Start a new game first.") := by
  unfold _get_game_status
  rw [hf]

/-- `_get_game_status` on an inactive, not-over state. -/
theorem get_game_status_idle {r : Registry} {sid : String} {gs : GameState}
    (hf : r.find? sid = some gs) (h1 : gs.is_active = false)
    (h2 : gs.is_game_over = false) :
    _get_game_status r sid =
      (r, .no_active_game "No active game. Start a new game first.") := by
  unfold _get_game_status
  rw [hf]
  simp only [h1, h2, and_self, if_true]

/-- `_get_game_status` in the snapshot case. -/
theorem get_game_status_snapshot {r : Registry} {sid : String} {gs : GameState}
    (hf : r.find? sid = some gs)
    (h : ¬ (gs.is_active = false ∧ gs.is_game_over = false)) :
    _get_game_status r sid =
      (r, .snapshot (if gs.is_active then "active" else "finished")
        gs.player_name gs.word.length gs.get_display_word
        (get_hangman_images.get? gs.image_idx) gs.sorted_guesses
        ((get_hangman_images.length : Int) - 1 - (gs.image_idx : Int))
        gs.is_game_over
        (if gs.is_game_over then some gs.is_game_won else none) sid) := by
  unfold _get_game_status
  rw [hf]
  simp only [if_neg h]

/-- `_end_game` on a known session id. -/
theorem end_game_found {r : Registry} {sid : String} {gs : GameState}
    (hf : r.find? sid = some gs) :
    _end_game r sid =
      (r.remove sid,
       .success ("Game ended for " ++ gs.player_name ++ ". The word was '" ++
         String.mk gs.word ++ "'. Thanks for playing!")) := by
  unfold _end_game
  rw [hf]

/-- The default (freshly constructed) state satisfies the invariant. -/
theorem Inv_default : GameState.Inv {} := by decide

/-- `RegInv` is preserved by `_start_hangman_game`, provided the word source
never returns an empty word (`get_secret_word` raises instead). -/
theorem RegInv_start {r : Registry} (hr : RegInv r) (p sid : String)
    {secret : Except String (List Char)}
    (hsec : ∀ w, secret = .ok w → w ≠ []) :
    RegInv (_start_hangman_game r p sid secret).1 := by
  rw [start_eq]
  have hr0 : RegInv (match r.find? sid with
      | none => r.set sid {}
      | some _ => r) := by
    rcases r.find? sid with _ | gs0
    · exact RegInv_set hr Inv_default sid
    · exact hr
  rcases secret with e | w
  · exact RegInv_set hr0
      (GameState.Inv_of_idle rfl rfl rfl (by show (0:Nat) ≤ 9; omega) rfl) sid
  · exact RegInv_set hr0
      (GameState.Inv_initialize rfl rfl (hsec w rfl)) sid

/-- `RegInv` is preserved by `_make_guess`. -/
theorem RegInv_guess {r : Registry} (hr : RegInv r) (letter sid : String) :
    RegInv (_make_guess r letter sid).1 := by
  rcases make_guess_spec r letter sid with ⟨h1, _⟩ | ⟨gs, c, hf, hact, _, _, _, hnew, h1, _⟩
  · rw [h1]; exact hr
  · rw [h1]
    exact RegInv_set hr
      (GameState.Inv_guess_step (RegInv_find? hr hf) hact hnew) sid

/-- `RegInv` is preserved by `_end_game`. -/
theorem RegInv_end {r : Registry} (hr : RegInv r) (sid : String) :
    RegInv (_end_game r sid).1 := by
  rcases hf : r.find? sid with _ | gs
  · unfold _end_game; rw [hf]; exact hr
  · rw [end_game_found hf]; exact RegInv_remove hr sid

/-- `_get_game_status` never changes the registry. -/
theorem status_registry (r : Registry) (sid : String) :
    (_get_game_status r sid).1 = r := by
  rcases hf : r.find? sid with _ | gs
  · rw [get_game_status_none hf]
  · by_cases h : gs.is_active = false ∧ gs.is_game_over = false
    · rw [get_game_status_idle hf h.1 h.2]
    · rw [get_game_status_snapshot hf h]

/-- `_list_active_sessions` never changes the registry. -/
theorem list_registry (r : Registry) : (_list_active_sessions r).1 = r := rfl

/-! ### Display-string lemmas -/

theorem joinWithSpaces_length (l : List String) (h : ∀ x ∈ l, x.length = 1)
    (hne : l ≠ []) : (joinWithSpaces l).length = 2 * l.length - 1 := by
  induction l with
  | nil => cases hne rfl
  | cons x xs ih =>
      cases xs with
      | nil =>
          have hx : x.length = 1 := h x (List.mem_cons_self x [])
          simpa [joinWithSpaces] using hx
      | cons y ys =>
          have hx : x.length = 1 := h x (List.mem_cons_self _ _)
          have hxs : ∀ z ∈ y :: ys, z.length = 1 :=
            fun z hz => h z (List.mem_cons_of_mem x hz)
          have hrec := ih hxs (by simp)
          have hjoin : joinWithSpaces (x :: y :: ys) =
              x ++ " " ++ joinWithSpaces (y :: ys) := rfl
          rw [hjoin, String.length_append, String.length_append, hx, hrec]
          have : (y :: ys).length = ys.length + 1 := rfl
          simp only [this, List.length_cons]
          have hsp : (" " : String).length = 1 := rfl
          rw [hsp]
          omega

theorem mem_joinWithSpaces {ch : Char} (hch : ch ≠ ' ') (l : List String) :
    ch ∈ (joinWithSpaces l).data ↔ ∃ x ∈ l, ch ∈ x.data := by
  induction l with
  | nil => simp [joinWithSpaces]
  | cons x xs ih =>
      cases xs with
      | nil => simp [joinWithSpaces]
      | cons y ys =>
          have hjoin : joinWithSpaces (x :: y :: ys) =
              x ++ " " ++ joinWithSpaces (y :: ys) := rfl
          rw [hjoin]
          constructor
          · intro hmem
            rcases List.mem_append.1 hmem with hmem | hmem
            · rcases List.mem_append.1 hmem with hmem | hmem
              · exact ⟨x, List.mem_cons_self _ _, hmem⟩
              · simp only [List.mem_singleton] at hmem
                exact absurd hmem hch
            · rcases ih.1 hmem with ⟨z, hz, hzc⟩
              exact ⟨z, List.mem_cons_of_mem x hz, hzc⟩
          · rintro ⟨z, hz, hzc⟩
            rcases List.mem_cons.1 hz with rfl | hz
            · exact List.mem_append.2 (Or.inl (List.mem_append.2 (Or.inl hzc)))
            · exact List.mem_append.2 (Or.inr (ih.2 ⟨z, hz, hzc⟩))

/-- Display length: letters and placeholders separated by single spaces. -/
theorem display_length {s : GameState} (hInv : s.Inv) (hne : s.word ≠ []) :
    s.get_display_word.length = 2 * s.word.length - 1 := by
  have hlen : s.puzzle.length = s.word.length := by
    rw [← hInv.2.1, List.length_map]
  unfold GameState.get_display_word
  rw [joinWithSpaces_length]
  · rw [List.length_map, hlen]
  · intro x hx
    rcases List.mem_map.1 hx with ⟨pl, _, rfl⟩
    by_cases hg : pl.guessed = true
    · simp [hg, String.length]
    · simp [hg, String.length]
  · intro hmap
    apply hne
    rw [← hInv.2.1, List.map_eq_nil_iff.1 hmap]
    rfl

/-- The alphabetic characters occurring in the display are exactly the
correctly guessed letters of the word. -/
theorem display_reveals {s : GameState} (hInv : s.Inv) {ch : Char}
    (hch : ch.isAlpha = true) :
    ch ∈ s.get_display_word.data ↔ ch ∈ s.guesses ∧ ch ∈ s.word := by
  have hsp : ch ≠ ' ' := by
    rintro rfl
    simp at hch
  have hus : ch ≠ '_' := by
    rintro rfl
    simp at hch
  unfold GameState.get_display_word
  rw [mem_joinWithSpaces hsp]
  constructor
  · rintro ⟨x, hx, hxc⟩
    rcases List.mem_map.1 hx with ⟨pl, hpl, rfl⟩
    by_cases hg : pl.guessed = true
    · rw [if_pos hg] at hxc
      simp only [String.mk] at hxc
      rcases List.mem_singleton.1 hxc with rfl
      refine ⟨(hInv.2.2.1 pl hpl).1 hg, ?_⟩
      rw [← hInv.2.1]
      exact List.mem_map_of_mem PuzzleLetter.character hpl
    · rw [if_neg hg] at hxc
      rcases List.mem_singleton.1 hxc with rfl
      exact absurd rfl hus
  · rintro ⟨hg, hw⟩
    rw [← hInv.2.1] at hw
    rcases List.mem_map.1 hw with ⟨pl, hpl, rfl⟩
    have hgd : pl.guessed = true := (hInv.2.2.1 pl hpl).2 hg
    refine ⟨String.mk [pl.character], ?_, ?_⟩
    · exact List.mem_map.2 ⟨pl, hpl, by rw [if_pos hgd]⟩
    · exact List.mem_singleton.2 rfl

/-- Winning means every puzzle position is revealed. -/
theorem won_iff_mask {s : GameState} (hInv : s.Inv) :
    s.is_game_won = true ↔ ∀ pl ∈ s.puzzle, pl.guessed = true := by
  rw [GameState.is_game_won_iff, hInv.1]
  constructor
  · intro h pl hpl
    have hc : pl.character ∈ s.word := by
      rw [← hInv.2.1]
      exact List.mem_map_of_mem PuzzleLetter.character hpl
    have hgg : pl.character ∈ s.guesses := by
      by_contra hgg
      have : pl.character ∈ s.word.toFinset \ s.guesses :=
        Finset.mem_sdiff.2 ⟨List.mem_toFinset.2 hc, hgg⟩
      rw [h] at this
      exact absurd this (Finset.not_mem_empty _)
    exact (hInv.2.2.1 pl hpl).2 hgg
  · intro h
    rw [Finset.eq_empty_iff_forall_not_mem]
    intro x hx
    rcases Finset.mem_sdiff.1 hx with ⟨hxw, hxg⟩
    rcases List.mem_map.1 (by rw [hInv.2.1]; exact List.mem_toFinset.1 hxw :
      x ∈ s.puzzle.map PuzzleLetter.character) with ⟨pl, hpl, rfl⟩
    exact hxg ((hInv.2.2.1 pl hpl).1 (h pl hpl))

/-- Zipping a list with an image of itself pairs each element with its
image. -/
theorem zip_map_self {α β : Type} (l : List α) (f : α → β) :
    l.zip (l.map f) = l.map (fun a => (a, f a)) := by
  induction l with
  | nil => rfl
  | cons x xs ih => simp [ih]

/-! ### Claim theorems -/

/-- C1: for every valid single-letter guess on an active game whose letter
was not previously guessed, exactly one of two state changes occurs: either
`image_idx` increments by 1 (and no puzzle position changes), or one or
more puzzle positions flip to revealed (and `image_idx` is unchanged) —
never both, never neither. -/
theorem guess_changes_exactly_one (r : Registry) (letter sid : String)
    (gs : GameState) (c : Char) (hfind : r.find? sid = some gs)
    (hInv : gs.Inv) (hact : gs.is_active = true)
    (hnorm : normalize_guess letter = [c]) (halpha : c.isAlpha = true)
    (hnew : c ∉ gs.guesses) :
    ∃ gs', (_make_guess r letter sid).1 = r.set sid gs' ∧
      (((gs'.image_idx = gs.image_idx + 1 ∧ gs'.puzzle = gs.puzzle) ∧
        ¬ (gs'.image_idx = gs.image_idx ∧ ∃ p ∈ gs.puzzle.zip gs'.puzzle,
            p.1.guessed = false ∧ p.2.guessed = true)) ∨
       ((gs'.image_idx = gs.image_idx ∧ ∃ p ∈ gs.puzzle.zip gs'.puzzle,
            p.1.guessed = false ∧ p.2.guessed = true) ∧
        ¬ (gs'.image_idx = gs.image_idx + 1 ∧ gs'.puzzle = gs.puzzle))) := by
  have hover : gs.is_game_over = false := hInv.2.2.2.2 hact
  refine ⟨(gs.apply_guess c).finish_if_over, ?_, ?_⟩
  · rw [make_guess_success hfind hact hover hnorm halpha hnew]
  · by_cases hc : c ∈ gs.remaining_letters
    · have hpuz : ((gs.apply_guess c).finish_if_over).puzzle =
          gs.puzzle.map (fun pl => PuzzleLetter.mk pl.character
            (pl.guessed || decide (pl.character = c))) := by
        rw [(GameState.finish_if_over_fields _).2.1,
          GameState.apply_guess_of_mem hc]
      have himg : ((gs.apply_guess c).finish_if_over).image_idx =
          gs.image_idx := by
        rw [(GameState.finish_if_over_fields _).2.2.1,
          GameState.apply_guess_of_mem hc]
      right
      constructor
      · refine ⟨himg, ?_⟩
        rw [hpuz, zip_map_self]
        have hcw : c ∈ gs.word := by
          rw [hInv.1] at hc
          exact List.mem_toFinset.1 (Finset.mem_sdiff.1 hc).1
        rw [← hInv.2.1] at hcw
        rcases List.mem_map.1 hcw with ⟨pl, hpl, rfl⟩
        have hgf : pl.guessed = false := by
          by_contra hgt
          have hgt2 : pl.guessed = true := by simpa using hgt
          exact hnew ((hInv.2.2.1 pl hpl).1 hgt2)
        refine ⟨(pl, PuzzleLetter.mk pl.character
          (pl.guessed || decide (pl.character = pl.character))),
          List.mem_map.2 ⟨pl, hpl, rfl⟩, hgf, ?_⟩
        simp [hgf]
      · rintro ⟨habs, -⟩
        omega
    · have hpuz : ((gs.apply_guess c).finish_if_over).puzzle = gs.puzzle := by
        rw [(GameState.finish_if_over_fields _).2.1,
          GameState.apply_guess_of_not_mem hc]
      have himg : ((gs.apply_guess c).finish_if_over).image_idx =
          gs.image_idx + 1 := by
        rw [(GameState.finish_if_over_fields _).2.2.1,
          GameState.apply_guess_of_not_mem hc]
      left
      refine ⟨⟨himg, hpuz⟩, ?_⟩
      rintro ⟨habs, -⟩
      omega

/-- Concrete run used by counterexamples and witnesses: a game on the word
CAT for session "s", won by guessing C, A, T. -/
def catReg : Registry := (_start_hangman_game [] "Alice" "s" (.ok ['C','A','T'])).1

/-- The freshly started CAT game state. -/
def catState : GameState := (catReg.find? "s").getD {}

/-- The registry after winning the CAT game. -/
def wonReg : Registry :=
  (_make_guess (_make_guess (_make_guess catReg "C" "s").1 "A" "s").1 "T" "s").1

/-- C2 counterexample: after winning the CAT game, the next guess fails with
the NoActiveGame error message, not with the GameAlreadyOver message the
claim requires. -/
theorem post_win_guess_gets_no_active_game :
    (_make_guess wonReg "Z" "s").2 =
      .error "No active game. Start a new game first." ∧
    (_make_guess wonReg "Z" "s").2 ≠
      .error "Game is already over. Start a new game." := by
  constructor
  · decide
  · decide

/-- C2 (amended): a game is won iff every puzzle position is revealed
(equivalently `remaining_letters` is empty, which is the code's test); a
winning guess deactivates the game; and every subsequent guess for that
session fails with the NoActiveGame error ("No active game. ...") — the
GameAlreadyOver branch is unreachable because `is_active` is already
false. -/
theorem win_deactivates_and_blocks_guesses (r : Registry) (letter sid : String)
    (gs : GameState) (c : Char) (hfind : r.find? sid = some gs)
    (hInv : gs.Inv) (hact : gs.is_active = true)
    (hnorm : normalize_guess letter = [c]) (halpha : c.isAlpha = true)
    (hnew : c ∉ gs.guesses)
    (hwin : (gs.apply_guess c).is_game_won = true) :
    ((gs.apply_guess c).is_game_won = true ↔
      ∀ pl ∈ (gs.apply_guess c).puzzle, pl.guessed = true) ∧
    (_make_guess r letter sid).1.find? sid =
      some ((gs.apply_guess c).finish_if_over) ∧
    ((gs.apply_guess c).finish_if_over).is_active = false ∧
    (∀ letter2, _make_guess (_make_guess r letter sid).1 letter2 sid =
      ((_make_guess r letter sid).1,
       .error "No active game. Start a new game first.")) := by
  have hover : gs.is_game_over = false := hInv.2.2.2.2 hact
  have hInv2 : ((gs.apply_guess c).finish_if_over).Inv :=
    GameState.Inv_guess_step hInv hact hnew
  have hwonmask := won_iff_mask hInv2
  rw [GameState.finish_if_over_won] at hwonmask
  rw [(GameState.finish_if_over_fields (gs.apply_guess c)).2.1] at hwonmask
  have hfinal_active : ((gs.apply_guess c).finish_if_over).is_active = false := by
    rw [GameState.finish_if_over_active]
    have : (gs.apply_guess c).is_game_over = true := by
      unfold GameState.is_game_over
      rw [hwin]
      rfl
    rw [if_pos this]
  have hstore : (_make_guess r letter sid).1.find? sid =
      some ((gs.apply_guess c).finish_if_over) := by
    rw [make_guess_success hfind hact hover hnorm halpha hnew]
    exact Registry.find?_set r sid _
  exact ⟨hwonmask, hstore, hfinal_active,
    fun letter2 => make_guess_inactive hstore hfinal_active⟩

/-- Reading the word at an index through the puzzle's character map. -/
theorem get_map_character {l : List PuzzleLetter} {w : List Char}
    (h : l.map PuzzleLetter.character = w) (i : Nat) (hp : i < l.length)
    (hw : i < w.length) : w.get ⟨i, hw⟩ = (l.get ⟨i, hp⟩).character := by
  subst h
  simp [List.get_eq_getElem, List.getElem_map]

/-- C3: in every registry of reachable states, each stored puzzle is the
secret word decorated with reveal flags, and position `i` is revealed iff
the word's letter at `i` has been guessed; this is established by
`_start_hangman_game` and preserved by `_make_guess`, `_get_game_status`,
`_list_active_sessions` and `_end_game` (the last three never modify any
stored state). -/
theorem mask_invariant_reachable (r : Registry) (pname sid : String)
    (secret : Except String (List Char)) (letter : String)
    (hr : RegInv r) (hsec : ∀ w, secret = .ok w → w ≠ []) :
    (∀ q ∈ r, q.2.puzzle.length = q.2.word.length ∧
      ∀ i (hp : i < q.2.puzzle.length) (hw : i < q.2.word.length),
        ((q.2.puzzle.get ⟨i, hp⟩).guessed = true ↔
          q.2.word.get ⟨i, hw⟩ ∈ q.2.guesses)) ∧
    RegInv (_start_hangman_game r pname sid secret).1 ∧
    RegInv (_make_guess r letter sid).1 ∧
    (_get_game_status r sid).1 = r ∧
    (_list_active_sessions r).1 = r ∧
    RegInv (_end_game r sid).1 := by
  refine ⟨?_, RegInv_start hr pname sid hsec, RegInv_guess hr letter sid,
    status_registry r sid, list_registry r, RegInv_end hr sid⟩
  intro q hq
  have hInv := hr q hq
  have hchar := hInv.2.1
  have hlen : q.2.puzzle.length = q.2.word.length := by
    rw [← hchar, List.length_map]
  refine ⟨hlen, ?_⟩
  intro i hp hw
  rw [get_map_character hchar i hp hw]
  exact hInv.2.2.1 _ (List.get_mem _ _ _)

/-- C4: every invariant state has `image_idx` in `[0, 9]`; the game is lost
iff `image_idx` is exactly 9; and after any fresh guess on an active game
the bound still holds and a lost game has been deactivated. -/
theorem miss_count_bounds (s : GameState) (hInv : s.Inv) :
    s.image_idx ≤ 9 ∧ (s.is_game_lost = true ↔ s.image_idx = 9) ∧
    ∀ c, s.is_active = true → c ∉ s.guesses →
      ((s.apply_guess c).finish_if_over.image_idx ≤ 9 ∧
       ((s.apply_guess c).finish_if_over.is_game_lost = true →
         (s.apply_guess c).finish_if_over.is_active = false)) := by
  refine ⟨hInv.2.2.2.1, ?_, ?_⟩
  · rw [GameState.is_game_lost_iff]
    have := hInv.2.2.2.1
    omega
  · intro c hact hnew
    have hInv2 := GameState.Inv_guess_step hInv hact hnew
    refine ⟨hInv2.2.2.2.1, ?_⟩
    intro hlost
    rw [GameState.finish_if_over_lost] at hlost
    rw [GameState.finish_if_over_active]
    have hover : (s.apply_guess c).is_game_over = true := by
      unfold GameState.is_game_over
      rw [hlost]
      simp
    rw [if_pos hover]

/-- C5: for an invariant state with a nonempty word, the display string has
length `2 * wordLength - 1`, and the letters it shows are exactly the
guessed letters that occur in the secret word. -/
theorem display_word_spec (s : GameState) (hInv : s.Inv)
    (hne : s.word ≠ []) :
    s.get_display_word.length = 2 * s.word.length - 1 ∧
    ∀ ch : Char, ch.isAlpha = true →
      (ch ∈ s.get_display_word.data ↔ ch ∈ s.guesses ∧ ch ∈ s.word) := by
  exact ⟨display_length hInv hne, fun ch hch => display_reveals hInv hch⟩

/-- C6: guessing a letter already in `guesses` (after normalization) leaves
the registry — hence the GameState — unchanged and returns the
DuplicateGuess error naming the letter. -/
theorem duplicate_guess_rejected (r : Registry) (letter sid : String)
    (gs : GameState) (c : Char) (hfind : r.find? sid = some gs)
    (hInv : gs.Inv) (hact : gs.is_active = true)
    (hnorm : normalize_guess letter = [c]) (halpha : c.isAlpha = true)
    (hdup : c ∈ gs.guesses) :
    _make_guess r letter sid =
      (r, .error ("You've already guessed '" ++ String.mk [c] ++
        "'. Try a different letter.")) := by
  have hover : gs.is_game_over = false := hInv.2.2.2.2 hact
  unfold _make_guess
  rw [hfind]
  simp only [hact, hover, Bool.true_eq_false, Bool.false_eq_true, if_false]
  rw [hnorm]
  simp only [halpha, Bool.true_eq_false, if_false, if_pos hdup]

/-- C7: starting a game for a session id and then ending it removes the id
from the registry, so a subsequent status call reports `no_game`. -/
theorem start_end_roundtrip (r : Registry) (pname sid : String)
    (secret : Except String (List Char)) :
    (∃ m, (_end_game (_start_hangman_game r pname sid secret).1 sid).2 =
      .success m) ∧
    _get_game_status
        (_end_game (_start_hangman_game r pname sid secret).1 sid).1 sid =
      ((_end_game (_start_hangman_game r pname sid secret).1 sid).1,
       .no_game "No game session found. Start a new game first.") := by
  have hfind : ∃ gsx,
      (_start_hangman_game r pname sid secret).1.find? sid = some gsx := by
    rw [start_eq]
    rcases secret with e | w
    · exact ⟨_, Registry.find?_set _ sid _⟩
    · exact ⟨_, Registry.find?_set _ sid _⟩
  rcases hfind with ⟨gsx, hgsx⟩
  rw [end_game_found hgsx]
  exact ⟨⟨_, rfl⟩, get_game_status_none (Registry.find?_remove _ sid)⟩

/-- A reset-and-renamed state has an empty word and, because of that,
already counts as won (and hence game-over). -/
theorem reset_rename_finished (s : GameState) (p : String) :
    ({ s.reset_game with player_name := p }).word = [] ∧
    ({ s.reset_game with player_name := p }).guesses = ∅ ∧
    ({ s.reset_game with player_name := p }).is_active = false ∧
    ({ s.reset_game with player_name := p }).is_game_won = true ∧
    ({ s.reset_game with player_name := p }).is_game_over = true :=
  ⟨rfl, rfl, rfl, rfl, rfl⟩

/-- The registry left behind when starting session "s" fails at word
selection: the session holds a reset, never-activated state. -/
def failReg : Registry := (_start_hangman_game [] "P" "s" (.error "boom")).1

/-- The never-activated state stored in `failReg`. -/
def failState : GameState := (failReg.find? "s").getD {}

/-- C8 counterexample: a session id that is present in the registry but was
never activated is reported with status "finished" (and won = true), not
with the distinct `no_active_game` indicator the claim requires. -/
theorem never_activated_reports_finished :
    (_get_game_status failReg "s").2.statusField = "finished" ∧
    (_get_game_status failReg "s").2.statusField ≠ "no_active_game" := by
  constructor
  · decide
  · decide

/-- C8 (amended): `_get_game_status` never hard-fails. An absent session id
is reported via the status field as `no_game`; a session that is present
but was never activated (its state is reset: inactive with an empty word,
hence `remaining_letters` is empty and the state already counts as won) is
reported as "finished" with `won = true` — the `no_active_game` indicator
would require an inactive state that is not game-over, which a
never-activated session does not satisfy. -/
theorem status_absence_reporting (r : Registry) (sid : String) :
    (r.find? sid = none →
      _get_game_status r sid =
        (r, .no_game "No game session found. Start a new game first.")) ∧
    (∀ gs, r.find? sid = some gs → gs.is_active = false →
      gs.remaining_letters = ∅ →
      (_get_game_status r sid).2.statusField = "finished" ∧
      (_get_game_status r sid).2.wonField = some true) := by
  constructor
  · intro hf
    exact get_game_status_none hf
  · intro gs hf hact hrem
    have hwon : gs.is_game_won = true := (GameState.is_game_won_iff gs).2 hrem
    have hover : gs.is_game_over = true := by
      unfold GameState.is_game_over
      rw [hwon]
      rfl
    have hcond : ¬ (gs.is_active = false ∧ gs.is_game_over = false) := by
      rintro ⟨-, h2⟩
      rw [hover] at h2
      cases h2
    rw [get_game_status_snapshot hf hcond]
    constructor
    · simp [StatusResult.statusField, hact]
    · simp [StatusResult.wonField, hover, hwon]

/-- C9: every invariant state has `image_idx` within the bounds of the
10-element image table, so the `get_hangman_images()[image_idx]` lookups
performed by `_make_guess` and `_get_game_status` always succeed. -/
theorem hangman_image_lookup_safe (s : GameState) (r : Registry)
    (letter sid : String) (hs : s.Inv) (hr : RegInv r) :
    (s.image_idx < get_hangman_images.length ∧
      (get_hangman_images.get? s.image_idx).isSome = true) ∧
    (∀ img, (_make_guess r letter sid).2.imageField = some img →
      img.isSome = true) ∧
    (∀ img, (_get_game_status r sid).2.imageField = some img →
      img.isSome = true) := by
  have hbound : ∀ t : GameState, t.Inv →
      (get_hangman_images.get? t.image_idx).isSome = true := by
    intro t ht
    have h9 := ht.2.2.2.1
    rw [List.get?_eq_getElem?, List.getElem?_eq_getElem
      (by rw [get_hangman_images_length]; omega)]
    rfl
  refine ⟨⟨by rw [get_hangman_images_length]; have := hs.2.2.2.1; omega,
    hbound s hs⟩, ?_, ?_⟩
  · intro img himg
    rcases make_guess_spec r letter sid with ⟨-, m, herr⟩ |
      ⟨gs, c, hf, hact, -, -, -, hnew, -, hres⟩
    · rw [herr] at himg
      cases himg
    · rw [hres] at himg
      cases himg
      have hInv2 := GameState.Inv_guess_step (RegInv_find? hr hf) hact hnew
      have himgfin := (GameState.finish_if_over_fields (gs.apply_guess c)).2.2.1
      have : (get_hangman_images.get?
          ((gs.apply_guess c).finish_if_over).image_idx).isSome = true :=
        hbound _ hInv2
      rwa [himgfin] at this
  · intro img himg
    rcases hf : r.find? sid with _ | gs
    · rw [get_game_status_none hf] at himg
      cases himg
    · by_cases hcond : gs.is_active = false ∧ gs.is_game_over = false
      · rw [get_game_status_idle hf hcond.1 hcond.2] at himg
        cases himg
      · rw [get_game_status_snapshot hf hcond] at himg
        cases himg
        exact hbound gs (RegInv_find? hr hf)

/-- C10: `_start_hangman_game` is not atomic on word-source failure: the
operation returns an error result, yet a reset GameState (empty word, no
guesses, inactive) remains registered under the session id; since an empty
word counts as won, a subsequent status call reports "finished" with
`won = true`. -/
theorem start_failure_leaves_finished_session (r : Registry)
    (pname sid e : String) :
    (_start_hangman_game r pname sid (.error e)).2 =
      .error ("Failed to start game: " ++ e) ∧
    (∃ gs, (_start_hangman_game r pname sid (.error e)).1.find? sid = some gs ∧
      gs.word = [] ∧ gs.guesses = ∅ ∧ gs.is_active = false ∧
      gs.is_game_won = true) ∧
    (_get_game_status (_start_hangman_game r pname sid (.error e)).1 sid).2.statusField
      = "finished" ∧
    (_get_game_status (_start_hangman_game r pname sid (.error e)).1 sid).2.wonField
      = some true := by
  have hres : (_start_hangman_game r pname sid (.error e)).2 =
      .error ("Failed to start game: " ++ e) := by
    rw [start_eq]
  have hfind : (_start_hangman_game r pname sid (.error e)).1.find? sid =
      some { ((r.find? sid).getD {}).reset_game with player_name := pname } := by
    rw [start_eq]
    exact Registry.find?_set _ sid _
  have hgs := reset_rename_finished ((r.find? sid).getD {}) pname
  have hcond : ¬ (({ ((r.find? sid).getD {}).reset_game with
        player_name := pname }).is_active = false ∧
      ({ ((r.find? sid).getD {}).reset_game with
        player_name := pname }).is_game_over = false) := by
    rintro ⟨-, h2⟩
    rw [hgs.2.2.2.2] at h2
    cases h2
  refine ⟨hres, ⟨_, hfind, hgs.1, hgs.2.1, hgs.2.2.1, hgs.2.2.2.1⟩, ?_, ?_⟩
  · rw [get_game_status_snapshot hfind hcond]
    rfl
  · rw [get_game_status_snapshot hfind hcond]
    rfl

/-- A one-letter game (word "A") for session "t", used to exhibit a winning
guess concretely. -/
def aReg : Registry := (_start_hangman_game [] "Ann" "t" (.ok ['A'])).1

/-- The freshly started one-letter game state. -/
def aState : GameState := (aReg.find? "t").getD {}

/-- The CAT game after correctly guessing C. -/
def cGuessedReg : Registry := (_make_guess catReg "C" "s").1

/-- The CAT game state with C revealed. -/
def cGuessedState : GameState := (cGuessedReg.find? "s").getD {}

/-- C1 witness: the theorem applied to guessing "c" on the fresh CAT game. -/
theorem guess_changes_exactly_one_witness :
    catReg.find? "s" = some catState ∧ catState.Inv ∧
    catState.is_active = true ∧ normalize_guess "c" = ['C'] ∧
    ('C').isAlpha = true ∧ 'C' ∉ catState.guesses ∧
    (∃ gs', (_make_guess catReg "c" "s").1 = catReg.set "s" gs' ∧
      (((gs'.image_idx = catState.image_idx + 1 ∧ gs'.puzzle = catState.puzzle) ∧
        ¬ (gs'.image_idx = catState.image_idx ∧
            ∃ p ∈ catState.puzzle.zip gs'.puzzle,
              p.1.guessed = false ∧ p.2.guessed = true)) ∨
       ((gs'.image_idx = catState.image_idx ∧
            ∃ p ∈ catState.puzzle.zip gs'.puzzle,
              p.1.guessed = false ∧ p.2.guessed = true) ∧
        ¬ (gs'.image_idx = catState.image_idx + 1 ∧
            gs'.puzzle = catState.puzzle)))) :=
  ⟨by decide, by decide, by decide, by decide, by decide, by decide,
   guess_changes_exactly_one catReg "c" "s" catState 'C' (by decide) (by decide)
     (by decide) (by decide) (by decide) (by decide)⟩

/-- C2 witness: the amended theorem applied to the winning guess "a" on the
one-letter game. -/
theorem win_deactivates_and_blocks_guesses_witness :
    aReg.find? "t" = some aState ∧ aState.Inv ∧ aState.is_active = true ∧
    normalize_guess "a" = ['A'] ∧ ('A').isAlpha = true ∧
    'A' ∉ aState.guesses ∧ (aState.apply_guess 'A').is_game_won = true ∧
    (((aState.apply_guess 'A').is_game_won = true ↔
      ∀ pl ∈ (aState.apply_guess 'A').puzzle, pl.guessed = true) ∧
    (_make_guess aReg "a" "t").1.find? "t" =
      some ((aState.apply_guess 'A').finish_if_over) ∧
    ((aState.apply_guess 'A').finish_if_over).is_active = false ∧
    (∀ letter2, _make_guess (_make_guess aReg "a" "t").1 letter2 "t" =
      ((_make_guess aReg "a" "t").1,
       .error "No active game. Start a new game first."))) :=
  ⟨by decide, by decide, by decide, by decide, by decide, by decide, by decide,
   win_deactivates_and_blocks_guesses aReg "a" "t" aState 'A' (by decide)
     (by decide) (by decide) (by decide) (by decide) (by decide) (by decide)⟩

/-- C3 witness: the invariant theorem applied to the CAT registry. -/
theorem mask_invariant_reachable_witness :
    RegInv catReg ∧ (∀ w, (Except.ok ['D','O','G'] :
      Except String (List Char)) = .ok w → w ≠ []) ∧
    ((∀ q ∈ catReg, q.2.puzzle.length = q.2.word.length ∧
      ∀ i (hp : i < q.2.puzzle.length) (hw : i < q.2.word.length),
        ((q.2.puzzle.get ⟨i, hp⟩).guessed = true ↔
          q.2.word.get ⟨i, hw⟩ ∈ q.2.guesses)) ∧
    RegInv (_start_hangman_game catReg "Bob" "s" (.ok ['D','O','G'])).1 ∧
    RegInv (_make_guess catReg "x" "s").1 ∧
    (_get_game_status catReg "s").1 = catReg ∧
    (_list_active_sessions catReg).1 = catReg ∧
    RegInv (_end_game catReg "s").1) :=
  ⟨by decide, by rintro w hw; cases hw; decide,
   mask_invariant_reachable catReg "Bob" "s" (.ok ['D','O','G']) "x"
     (by decide) (by rintro w hw; cases hw; decide)⟩

/-- C4 witness: the bound theorem applied to the fresh CAT state. -/
theorem miss_count_bounds_witness :
    catState.Inv ∧
    (catState.image_idx ≤ 9 ∧
     (catState.is_game_lost = true ↔ catState.image_idx = 9) ∧
     ∀ c, catState.is_active = true → c ∉ catState.guesses →
       ((catState.apply_guess c).finish_if_over.image_idx ≤ 9 ∧
        ((catState.apply_guess c).finish_if_over.is_game_lost = true →
          (catState.apply_guess c).finish_if_over.is_active = false))) :=
  ⟨by decide, miss_count_bounds catState (by decide)⟩

/-- C5 witness: the display theorem applied to the CAT state with C
revealed. -/
theorem display_word_spec_witness :
    cGuessedState.Inv ∧ cGuessedState.word ≠ [] ∧
    (cGuessedState.get_display_word.length = 2 * cGuessedState.word.length - 1 ∧
     ∀ ch : Char, ch.isAlpha = true →
       (ch ∈ cGuessedState.get_display_word.data ↔
         ch ∈ cGuessedState.guesses ∧ ch ∈ cGuessedState.word)) :=
  ⟨by decide, by decide,
   display_word_spec cGuessedState (by decide) (by decide)⟩

/-- C6 witness: the duplicate theorem applied to re-guessing "c" (a case
variant of the already guessed C) on the CAT game. -/
theorem duplicate_guess_rejected_witness :
    cGuessedReg.find? "s" = some cGuessedState ∧ cGuessedState.Inv ∧
    cGuessedState.is_active = true ∧ normalize_guess "c" = ['C'] ∧
    ('C').isAlpha = true ∧ 'C' ∈ cGuessedState.guesses ∧
    _make_guess cGuessedReg "c" "s" =
      (cGuessedReg, .error ("You've already guessed '" ++ String.mk ['C'] ++
        "'. Try a different letter.")) :=
  ⟨by decide, by decide, by decide, by decide, by decide, by decide,
   duplicate_guess_rejected cGuessedReg "c" "s" cGuessedState 'C' (by decide)
     (by decide) (by decide) (by decide) (by decide) (by decide)⟩

/-- C8 witness: the amended status theorem applied to the registry left by a
failed start. -/
theorem status_absence_reporting_witness :
    failReg.find? "s" = some failState ∧ failState.is_active = false ∧
    failState.remaining_letters = ∅ ∧
    ((_get_game_status failReg "s").2.statusField = "finished" ∧
     (_get_game_status failReg "s").2.wonField = some true) :=
  ⟨by decide, by decide, by decide,
   (status_absence_reporting failReg "s").2 failState (by decide) (by decide)
     (by decide)⟩

/-- C9 witness: the lookup-safety theorem applied to the CAT game. -/
theorem hangman_image_lookup_safe_witness :
    catState.Inv ∧ RegInv catReg ∧
    ((catState.image_idx < get_hangman_images.length ∧
      (get_hangman_images.get? catState.image_idx).isSome = true) ∧
     (∀ img, (_make_guess catReg "q" "s").2.imageField = some img →
       img.isSome = true) ∧
     (∀ img, (_get_game_status catReg "s").2.imageField = some img →
       img.isSome = true)) :=
  ⟨by decide, by decide,
   hangman_image_lookup_safe catState catReg "q" "s" (by decide) (by decide)⟩
